import Mathlib

/-!
Verification of the DHT_Hunter web-asset bundling scripts
(`src/bundle_web_files.py`, combined mode, and `src/tools/web_bundler.py`,
split mode) against their natural-language specification.

Bytes are modelled as `Nat` with explicit `< 256` bounds where they matter;
Python strings are modelled as Lean `String` (working over `String.data`,
their character lists); a Python function that can raise is modelled with
`Option`, `none` standing for the raised exception.
-/

namespace DHTHunter

/-- One character of Python's `re.sub(r'[^a-zA-Z0-9]', '_', name)`
(`bundle_web_files.py` line 14, `tools/web_bundler.py` line 20):
an ASCII alphanumeric character is kept, any other character becomes `_`.
`Char.isAlphanum` is exactly the ASCII class `[a-zA-Z0-9]`. -/
def subChar (c : Char) : Char :=
  if c.isAlphanum then c else '_'

/-- `sanitize_var_name` from `bundle_web_files.py` lines 11-18 (identical in
`tools/web_bundler.py` lines 17-24): replace every character outside
`[a-zA-Z0-9]` with `_`, then prepend `_` when `name[0].isdigit()`.
`name[0]` raises `IndexError` on the empty string; that error path is
modelled by `none`. -/
def sanitize_var_name (s : String) : Option String :=
  match s.data.map subChar with
  | [] => none
  | c :: cs => some (if c.isDigit then ⟨'_' :: c :: cs⟩ else ⟨c :: cs⟩)

/-- Modelled from the spec's words (§4.1): "replace every character outside
`[A-Za-z0-9]` with `_`; if the resulting first character is a digit,
prepend `_`".  Stated independently of `sanitize_var_name` so the code
function can be compared against it. -/
def specSymbolicName (s : String) : String :=
  match s.data.map (fun c => if c.isAlphanum then c else '_') with
  | [] => ""
  | c :: cs => if c.isDigit then ⟨'_' :: c :: cs⟩ else ⟨c :: cs⟩

/-- First-character class of the regular expression `[_A-Za-z][_A-Za-z0-9]*`. -/
def isIdentStart (c : Char) : Bool :=
  c == '_' || c.isAlpha

/-- Continuation-character class of the regular expression
`[_A-Za-z][_A-Za-z0-9]*`. -/
def isIdentChar (c : Char) : Bool :=
  c == '_' || c.isAlphanum

/-- Whether a string matches the regular expression `[_A-Za-z][_A-Za-z0-9]*`. -/
def matchesIdent (s : String) : Bool :=
  match s.data with
  | [] => false
  | c :: cs => isIdentStart c && cs.all isIdentChar

/-- The basename of a POSIX path: the suffix after the last `/`. -/
def basenameChars (p : List Char) : List Char :=
  (p.reverse.takeWhile (fun c => c != '/')).reverse

/-- The basename with its leading dots removed.  `os.path.splitext` never
treats a leading dot of the basename as starting an extension, which is
equivalent to looking for the last dot of this dot-stripped core. -/
def splitextCore (p : List Char) : List Char :=
  (basenameChars p).dropWhile (fun c => c == '.')

/-- The extension of a path, dot included, as computed by
`os.path.splitext(file_path)[1]` on a POSIX host: the suffix of the basename
starting at its last `.`, provided some non-dot character of the basename
precedes that dot; otherwise the empty string. -/
def splitextExt (p : List Char) : List Char :=
  if (splitextCore p).contains '.' then
    '.' :: ((splitextCore p).reverse.takeWhile (fun c => c != '.')).reverse
  else []

/-- The extension→MIME dict of `get_mime_type` (`bundle_web_files.py` lines
23-34, identical in `tools/web_bundler.py` lines 86-97); the Python dict
lookup `mime_types.get(ext, ...)` is modelled as a chain of comparisons
against the literal keys, which all carry their leading dot. -/
def mimeTableLookup (e : List Char) : Option String :=
  if e = ['.', 'h', 't', 'm', 'l'] then some "text/html"
  else if e = ['.', 'c', 's', 's'] then some "text/css"
  else if e = ['.', 'j', 's'] then some "application/javascript"
  else if e = ['.', 'j', 's', 'o', 'n'] then some "application/json"
  else if e = ['.', 'p', 'n', 'g'] then some "image/png"
  else if e = ['.', 'j', 'p', 'g'] then some "image/jpeg"
  else if e = ['.', 'j', 'p', 'e', 'g'] then some "image/jpeg"
  else if e = ['.', 'g', 'i', 'f'] then some "image/gif"
  else if e = ['.', 's', 'v', 'g'] then some "image/svg+xml"
  else if e = ['.', 'i', 'c', 'o'] then some "image/x-icon"
  else none

/-- `get_mime_type` from `bundle_web_files.py` lines 20-35 (identical in
`tools/web_bundler.py` lines 83-98):
`ext = os.path.splitext(file_path)[1].lower()` followed by
`mime_types.get(ext, 'application/octet-stream')`.  Python's `str.lower` is
modelled by `Char.toLower` character-wise. -/
def get_mime_type (p : String) : String :=
  (mimeTableLookup ((splitextExt p.data).map Char.toLower)).getD
    "application/octet-stream"

/-- Modelled from the claim's words: the fixed table keyed by the bare
(dot-less) extension, `html→text/html`, ..., `ico→image/x-icon`. -/
def claimMimeLookup (e : List Char) : Option String :=
  if e = ['h', 't', 'm', 'l'] then some "text/html"
  else if e = ['c', 's', 's'] then some "text/css"
  else if e = ['j', 's'] then some "application/javascript"
  else if e = ['j', 's', 'o', 'n'] then some "application/json"
  else if e = ['p', 'n', 'g'] then some "image/png"
  else if e = ['j', 'p', 'g'] then some "image/jpeg"
  else if e = ['j', 'p', 'e', 'g'] then some "image/jpeg"
  else if e = ['g', 'i', 'f'] then some "image/gif"
  else if e = ['s', 'v', 'g'] then some "image/svg+xml"
  else if e = ['i', 'c', 'o'] then some "image/x-icon"
  else none

/-- Modelled from the claim's words: lowercase the file's extension (the
`splitext` extension without its leading dot; the empty string when the file
has no extension) and look it up in the fixed table; anything absent resolves
to `application/octet-stream`. -/
def claimMime (p : String) : String :=
  (claimMimeLookup (((splitextExt p.data).drop 1).map Char.toLower)).getD
    "application/octet-stream"

/-- The lowercase hexadecimal digit character for a value `0 ≤ n < 16`,
as produced by Python's `%x` formatting (`48 = '0'`, `87 = 'a' - 10`). -/
def hexDigitChar (n : Nat) : Char :=
  if n < 10 then Char.ofNat (n + 48) else Char.ofNat (n + 87)

/-- The two characters of `f"{byte:02x}"` for one octet (`b < 256`):
high nibble then low nibble, zero-padded to width 2. -/
def hexByte (b : Nat) : List Char :=
  [hexDigitChar (b / 16), hexDigitChar (b % 16)]

/-- The byte-array body emitted by the `enumerate(content)` loop of
`bundle_web_files.py` lines 81-84 (identical in `tools/web_bundler.py`
lines 54-57): before every byte whose index satisfies `i % 12 == 0` the
separator `"\n    "` is written, then `f"0x{byte:02x}, "`. -/
def encodeFrom : Nat → List Nat → List Char
  | _, [] => []
  | i, b :: bs =>
    (if i % 12 = 0 then ['\n', ' ', ' ', ' ', ' '] else []) ++
      '0' :: 'x' :: hexByte b ++ (',' :: ' ' :: encodeFrom (i + 1) bs)

/-- The complete emitted byte-array body of one asset (the loop starts at
index 0). -/
def byteArrayBody (bs : List Nat) : String :=
  ⟨encodeFrom 0 bs⟩

/-- The numeric value of one lowercase hexadecimal digit character. -/
def hexVal (c : Char) : Nat :=
  if c.isDigit then c.toNat - 48
  else if 'a' ≤ c ∧ c ≤ 'f' then c.toNat - 87
  else 0

/-- Decoder taken from the claim's words: scan the emitted text and parse, in
order, each `0x` element followed by its two hex digits as one byte; every
other character (commas, blanks, newlines) is array punctuation and is
skipped. -/
def decodeHexBytes : List Char → List Nat
  | [] => []
  | '0' :: 'x' :: d1 :: d2 :: rest =>
    (hexVal d1 * 16 + hexVal d2) :: decodeHexBytes rest
  | _ :: rest => decodeHexBytes rest

/-- A directory under the asset root: named files with their byte contents
and named subdirectories, each list in on-disk iteration order (the order in
which `os.walk` enumerates the entries). -/
inductive DirTree where
  | node (files : List (String × List Nat)) (dirs : List (String × DirTree)) : DirTree

/-- One discovered asset: the subdirectory components under the asset root,
the file's own name, and its byte content. -/
structure Asset where
  dirs : List String
  name : String
  content : List Nat

/-- The relative path recorded for an asset, as produced by
`os.path.relpath(os.path.join(root, file), "web")` on a POSIX host. -/
def Asset.relPath (a : Asset) : String :=
  String.intercalate "/" (a.dirs ++ [a.name])

/-- The on-disk path of an asset, as produced by
`os.path.join(root, file)` where the walk started at `"web"`. -/
def Asset.filePath (a : Asset) : String :=
  String.intercalate "/" ("web" :: a.dirs ++ [a.name])

/-- Python's `name.startswith('.')`: whether the first character is a dot. -/
def startsWithDot (s : String) : Bool :=
  match s.data with
  | [] => false
  | c :: _ => c == '.'

/-- The assets collected from the files of one `os.walk` triple: a file is
skipped when `file.startswith('.')` (`bundle_web_files.py` line 46,
`tools/web_bundler.py` line 197).  Note that only file names are tested;
the walk's directory-name list is never filtered. -/
def walkFiles (pre : List String) (files : List (String × List Nat)) :
    List Asset :=
  (files.filter (fun f => !(startsWithDot f.1))).map (fun f => ⟨pre, f.1, f.2⟩)

mutual

/-- The sequence of assets produced by the `os.walk("web")` loop of
`bundle_web_files.py` lines 44-50 (same traversal in `tools/web_bundler.py`
lines 195-200): the current directory's non-hidden files first, then the
subdirectories recursively, in order. -/
def walkTree (pre : List String) : DirTree → List Asset
  | .node files dirs => walkFiles pre files ++ walkDirs pre dirs

/-- Recursive descent of `os.walk` into the (unfiltered) subdirectory list. -/
def walkDirs (pre : List String) : List (String × DirTree) → List Asset
  | [] => []
  | (d, t) :: rest => walkTree (pre ++ [d]) t ++ walkDirs pre rest

end

/-- Total wrapper around `sanitize_var_name` used inside the emitters: the
relative path of a traversed asset is never empty (a file always has a
non-empty name), so the `none` (`IndexError`) branch is unreachable there;
it is collapsed to `""`. -/
def sanitizeVar (s : String) : String :=
  (sanitize_var_name s).getD ""

/-- The generated identifier of one asset,
`var_name = sanitize_var_name(rel_path)`. -/
def assetVar (a : Asset) : String :=
  sanitizeVar a.relPath

/-- The MIME string the generators record for one asset,
`get_mime_type(file_path)`. -/
def assetMime (a : Asset) : String :=
  get_mime_type a.filePath

/-- The fixed heading of combined-mode `web_bundle.hpp`
(`bundle_web_files.py` lines 54-66). -/
def combinedHeader : String :=
  "// Auto-generated file - DO NOT EDIT\n// Index of all bundled web files\n\n#pragma once\n\n#include <string>\n#include <unordered_map>\n#include <vector>\n\nnamespace dht_hunter \x7b\nnamespace web_bundle \x7b\n\n"

/-- The per-asset text block of combined mode (`bundle_web_files.py` lines
73-88): comment, byte-array definition, path string, MIME string. -/
def assetBlock (a : Asset) : String :=
  "// Bundled file: " ++ a.relPath ++ "\n" ++
    "inline const std::vector<unsigned char> " ++ assetVar a ++ " = \x7b\n" ++
    byteArrayBody a.content ++
    "\n\x7d;\n" ++
    "inline const std::string " ++ assetVar a ++ "_path = \"" ++ a.relPath ++
    "\";\n" ++
    "inline const std::string " ++ assetVar a ++ "_mime = \"" ++ assetMime a ++
    "\";\n\n"

/-- The `get_bundled_files()` accessor text of combined mode
(`bundle_web_files.py` lines 91-101): one insertion per asset, keyed by the
relative path (`files["{rel_path}"] = &{var_name};`). -/
def filesMapText (as : List Asset) : String :=
  "// Get all bundled files\ninline std::unordered_map<std::string, const std::vector<unsigned char>*> get_bundled_files() \x7b\n    std::unordered_map<std::string, const std::vector<unsigned char>*> files;\n" ++
    String.join (as.map (fun a =>
      "    files[\"" ++ a.relPath ++ "\"] = &" ++ assetVar a ++ ";\n")) ++
    "    return files;\n\x7d\n\n"

/-- The `get_bundled_file_paths()` accessor text of combined mode
(`bundle_web_files.py` lines 103-113). -/
def pathsMapText (as : List Asset) : String :=
  "// Get all bundled file paths\ninline std::unordered_map<std::string, std::string> get_bundled_file_paths() \x7b\n    std::unordered_map<std::string, std::string> paths;\n" ++
    String.join (as.map (fun a =>
      "    paths[\"" ++ a.relPath ++ "\"] = " ++ assetVar a ++ "_path;\n")) ++
    "    return paths;\n\x7d\n\n"

/-- The `get_bundled_file_mime_types()` accessor text of combined mode
(`bundle_web_files.py` lines 115-125). -/
def mimesMapText (as : List Asset) : String :=
  "// Get all bundled file MIME types\ninline std::unordered_map<std::string, std::string> get_bundled_file_mime_types() \x7b\n    std::unordered_map<std::string, std::string> mime_types;\n" ++
    String.join (as.map (fun a =>
      "    mime_types[\"" ++ a.relPath ++ "\"] = " ++ assetVar a ++ "_mime;\n")) ++
    "    return mime_types;\n\x7d\n\n"

/-- The fixed tail of combined-mode `web_bundle.hpp`
(`bundle_web_files.py` lines 127-149): the two point-lookup functions and the
closing namespaces. -/
def combinedAccessorTail : String :=
  "// Get a bundled file by path\ninline const std::vector<unsigned char>* get_bundled_file(const std::string& path) \x7b\n    auto files = get_bundled_files();\n    auto it = files.find(path);\n    if (it != files.end()) \x7b\n        return it->second;\n    \x7d\n    return nullptr;\n\x7d\n\n// Get a bundled file MIME type by path\ninline std::string get_bundled_file_mime_type(const std::string& path) \x7b\n    auto mime_types = get_bundled_file_mime_types();\n    auto it = mime_types.find(path);\n    if (it != mime_types.end()) \x7b\n        return it->second;\n    \x7d\n    return \"application/octet-stream\";\n\x7d\n\n\x7d // namespace web_bundle\n\x7d // namespace dht_hunter\n"

/-- The full text of combined-mode `web_bundle.hpp` for a given asset list,
in the order `main` writes it. -/
def emitCombined (as : List Asset) : String :=
  combinedHeader ++ String.join (as.map assetBlock) ++
    filesMapText as ++ pathsMapText as ++ mimesMapText as ++
    combinedAccessorTail

/-- The whole combined-mode pipeline of `main` in `bundle_web_files.py`:
walk the asset root, then emit `web_bundle.hpp`. -/
def bundleWebFilesOutput (t : DirTree) : String :=
  emitCombined (walkTree [] t)

/-- C++ `unordered_map` assignment `m[k] = v`: overwrite the entry when the
key is present, append a new entry otherwise. -/
def insertEntry {β : Type} (m : List (String × β)) (k : String) (v : β) :
    List (String × β) :=
  if m.any (fun p => p.1 == k) then
    m.map (fun p => if p.1 == k then (k, v) else p)
  else m ++ [(k, v)]

/-- The map built by the body of a generated accessor: successive
`m[k] = v` insertions starting from the empty map. -/
def buildMap {β : Type} (es : List (String × β)) : List (String × β) :=
  es.foldl (fun m e => insertEntry m e.1 e.2) []

/-- Key/value pairs inserted by combined-mode `get_bundled_files()`
(`bundle_web_files.py` line 98, `files["{rel_path}"] = &{var_name};`): the
relative path maps to (a handle to) the asset's bytes. -/
def combinedFilesEntries (as : List Asset) : List (String × List Nat) :=
  as.map (fun a => (a.relPath, a.content))

/-- Key/value pairs inserted by split-mode `get_bundled_files()`
(`tools/web_bundler.py` line 128, `files["{var_name}_path"] = &{var_name};`):
the key is the literal text of the identifier `var_name + "_path"`, not the
relative path. -/
def splitFilesEntries (as : List Asset) : List (String × List Nat) :=
  as.map (fun a => (assetVar a ++ "_path", a.content))

/-- Key/value pairs of combined-mode `get_bundled_file_mime_types()`
(`bundle_web_files.py` line 122). -/
def combinedMimeEntries (as : List Asset) : List (String × String) :=
  as.map (fun a => (a.relPath, assetMime a))

/-- Key/value pairs of split-mode `get_bundled_file_mime_types()`
(`tools/web_bundler.py` line 152, `mime_types[{var_name}_path] = ...`): the
key there is the C++ variable `var_name_path`, whose runtime value is the
relative path, so these entries are keyed by the relative path. -/
def splitMimeEntries (as : List Asset) : List (String × String) :=
  as.map (fun a => (a.relPath, assetMime a))

/-- Semantics of the generated `get_bundled_file(path)` over the inserted
entries: `find` in the built map, `none` standing for `nullptr`. -/
def get_bundled_file (es : List (String × List Nat)) (p : String) :
    Option (List Nat) :=
  List.lookup p (buildMap es)

/-- Semantics of the generated `get_bundled_file_mime_type(path)`: `find` in
the built map, `application/octet-stream` when absent. -/
def get_bundled_file_mime_type (es : List (String × String)) (p : String) :
    String :=
  (List.lookup p (buildMap es)).getD "application/octet-stream"

/-- Split mode writes each asset's header to `{output_dir}/{var_name}.hpp`
(`tools/web_bundler.py` line 77); this is that file name. -/
def splitOutputFileName (a : Asset) : String :=
  assetVar a ++ ".hpp"

/-- The one-asset input used to exhibit C1's mode divergence. -/
def c1Assets : List Asset :=
  [Asset.mk [] "index.html" [104]]

/-- The colliding pair of assets from the spec's collision example. -/
def collisionAssets : List Asset :=
  [Asset.mk [] "a.b.css" [1], Asset.mk [] "a-b.css" [2]]

/-- The one-asset input used to exhibit C7's broken split-mode lookup. -/
def c7Assets : List Asset :=
  [Asset.mk [] "app.css" [1, 2]]

/-- First witness tree for C8: one asset, no subdirectories. -/
def c8TreeA : DirTree :=
  .node [("a.css", [1])] []

/-- Second witness tree for C8: same asset plus an empty subdirectory, a
different directory state with the same discovered contents. -/
def c8TreeB : DirTree :=
  .node [("a.css", [1])] [("sub", .node [] [])]

theorem subChar_isIdentChar (c : Char) : isIdentChar (subChar c) = true := by
  unfold subChar isIdentChar
  by_cases h : c.isAlphanum
  · simp [h]
  · simp [h]

theorem subChar_idem (c : Char) : subChar (subChar c) = subChar c := by
  unfold subChar
  by_cases h : c.isAlphanum
  · simp [h]
  · simp [h]

theorem map_subChar_idem (l : List Char) :
    (l.map subChar).map subChar = l.map subChar := by
  induction l with
  | nil => rfl
  | cons c cs ih => simp [ih, subChar_idem]

theorem isAlpha_of_isAlphanum_not_isDigit (c : Char)
    (h1 : c.isAlphanum = true) (h2 : c.isDigit = false) : c.isAlpha = true := by
  simp only [Char.isAlphanum, Bool.or_eq_true] at h1
  rcases h1 with h | h
  · exact h
  · rw [h] at h2
    exact absurd h2 (by simp)

theorem subChar_head_start (c : Char) (h : (subChar c).isDigit = false) :
    isIdentStart (subChar c) = true := by
  unfold subChar at h ⊢
  by_cases ha : c.isAlphanum
  · simp only [if_pos ha] at h ⊢
    unfold isIdentStart
    simp [isAlpha_of_isAlphanum_not_isDigit c ha h]
  · simp [if_neg ha, isIdentStart]

theorem data_ne_nil_of_ne_empty {s : String} (h : s ≠ "") : s.data ≠ [] := by
  intro hd
  apply h
  cases s with
  | mk data =>
    cases data with
    | nil => rfl
    | cons c cs => simp at hd

/-- Core description of `sanitize_var_name` on a non-empty input. -/
theorem sanitize_var_name_eq_spec {s : String} (h : s ≠ "") :
    sanitize_var_name s = some (specSymbolicName s) := by
  unfold sanitize_var_name specSymbolicName
  have hd := data_ne_nil_of_ne_empty h
  rcases List.exists_cons_of_ne_nil hd with ⟨c, cs, hc⟩
  have hmap : (fun c => if c.isAlphanum then c else '_') = subChar := by
    funext x
    rfl
  rw [hc, hmap]
  simp [List.map]

theorem sanitize_var_name_matches_ident {s t : String}
    (h : sanitize_var_name s = some t) : matchesIdent t = true := by
  unfold sanitize_var_name at h
  cases hm : s.data.map subChar with
  | nil => rw [hm] at h; exact absurd h (by simp)
  | cons c cs =>
    rw [hm] at h
    simp only [Option.some.injEq] at h
    have hcs : ∀ x ∈ cs, isIdentChar x = true := by
      intro x hx
      have hx' : x ∈ s.data.map subChar := by
        rw [hm]; exact List.mem_cons_of_mem _ hx
      rcases List.mem_map.mp hx' with ⟨y, _, hy⟩
      rw [← hy]
      exact subChar_isIdentChar y
    have hc : ∃ y, subChar y = c := by
      have hx' : c ∈ s.data.map subChar := by rw [hm]; exact List.mem_cons_self c cs
      rcases List.mem_map.mp hx' with ⟨y, _, hy⟩
      exact ⟨y, hy⟩
    by_cases hdig : c.isDigit
    · rw [if_pos hdig] at h
      rw [← h]
      unfold matchesIdent
      simp only [List.all_cons, Bool.and_eq_true]
      refine ⟨by decide, ?_, ?_⟩
      · rcases hc with ⟨y, hy⟩
        rw [← hy]
        exact subChar_isIdentChar y
      · simp only [List.all_eq_true]
        exact hcs
    · rw [if_neg hdig] at h
      rw [← h]
      unfold matchesIdent
      rcases hc with ⟨y, hy⟩
      have hstart : isIdentStart c = true := by
        rw [← hy]
        exact subChar_head_start y (by rw [hy]; exact Bool.eq_false_iff.mpr hdig)
      simp only [hstart, Bool.true_and, List.all_eq_true]
      exact hcs

/-- C4: for every non-empty relative path, the derived symbolic name is exactly
the spec's description (replace non-alphanumerics by `_`, prepend `_` before a
leading digit) and matches `[_A-Za-z][_A-Za-z0-9]*`; in particular
`css/main-v2.css ↦ css_main_v2_css` and `3d/model.json ↦ _3d_model_json`. -/
theorem C4_sanitize_spec :
    (∀ s : String, s ≠ "" →
      sanitize_var_name s = some (specSymbolicName s) ∧
      matchesIdent (specSymbolicName s) = true) ∧
    sanitize_var_name "css/main-v2.css" = some "css_main_v2_css" ∧
    sanitize_var_name "3d/model.json" = some "_3d_model_json" := by
  refine ⟨fun s h => ⟨sanitize_var_name_eq_spec h, ?_⟩, by decide, by decide⟩
  exact sanitize_var_name_matches_ident (sanitize_var_name_eq_spec h)

/-- Witness for C4 at the concrete input `css/main-v2.css`. -/
theorem C4_sanitize_spec_witness :
    sanitize_var_name "css/main-v2.css" =
      some (specSymbolicName "css/main-v2.css") ∧
    matchesIdent (specSymbolicName "css/main-v2.css") = true :=
  C4_sanitize_spec.1 "css/main-v2.css" (by decide)

/-- C9: `sanitize_var_name` is only defined on non-empty strings: on `""` the
`name[0]` access raises (modelled by `none`), and on every non-empty string it
returns a name, so under the callers' non-empty precondition the error branch
is unreachable. -/
theorem C9_empty_input_error :
    sanitize_var_name "" = none ∧
    ∀ s : String, s ≠ "" → (sanitize_var_name s).isSome = true := by
  constructor
  · rfl
  · intro s h
    rw [sanitize_var_name_eq_spec h]
    rfl

/-- Witness for C9 at the concrete input `"a"`. -/
theorem C9_empty_input_error_witness :
    sanitize_var_name "" = none ∧ (sanitize_var_name "a").isSome = true :=
  ⟨C9_empty_input_error.1, C9_empty_input_error.2 "a" (by decide)⟩

/-- C10: symbolic-name derivation is idempotent: whenever `sanitize_var_name`
succeeds, applying it to its own output returns that output unchanged. -/
theorem C10_sanitize_idempotent (s t : String)
    (h : sanitize_var_name s = some t) : sanitize_var_name t = some t := by
  unfold sanitize_var_name at h
  cases hm : s.data.map subChar with
  | nil => rw [hm] at h; exact absurd h (by simp)
  | cons c cs =>
    rw [hm] at h
    simp only [Option.some.injEq] at h
    have hfix : (c :: cs).map subChar = c :: cs := by
      have := map_subChar_idem s.data
      rw [hm] at this
      exact this
    by_cases hdig : c.isDigit
    · rw [if_pos hdig] at h
      subst h
      unfold sanitize_var_name
      have : ('_' :: c :: cs).map subChar = '_' :: c :: cs := by
        simp only [List.map_cons] at hfix ⊢
        have h1 : subChar '_' = '_' := by decide
        rw [h1]
        exact congrArg _ hfix
      simp only [this]
      have hnd : ('_' : Char).isDigit = false := by decide
      simp [hnd]
    · rw [if_neg hdig] at h
      subst h
      unfold sanitize_var_name
      simp only [hfix]
      simp [hdig]

/-- Witness for C10: `a.b` sanitizes to `a_b`, which is a fixed point. -/
theorem C10_sanitize_idempotent_witness :
    sanitize_var_name "a_b" = some "a_b" :=
  C10_sanitize_idempotent "a.b" "a_b" (by decide)

theorem splitextExt_shape (p : List Char) :
    splitextExt p = [] ∨ ∃ s, splitextExt p = '.' :: s := by
  unfold splitextExt
  split
  · right
    exact ⟨_, rfl⟩
  · left
    rfl

theorem dotted_lookup_eq (l : List Char) :
    mimeTableLookup ('.' :: l) = claimMimeLookup l := by
  simp [mimeTableLookup, claimMimeLookup]

/-- C5: for every file path, the resolved MIME type is exactly the claim's
rule: lowercase the extension and look it up in the fixed bare-extension
table, with `application/octet-stream` for everything absent (including
paths without an extension). -/
theorem C5_mime_resolution (p : String) : get_mime_type p = claimMime p := by
  unfold get_mime_type claimMime
  rcases splitextExt_shape p.data with h | ⟨s, h⟩
  · rw [h]
    rfl
  · rw [h]
    simp only [List.map_cons, List.drop_succ_cons, List.drop_zero]
    have hlow : Char.toLower '.' = '.' := by decide
    rw [hlow, dotted_lookup_eq]

theorem decode_skip (c : Char) (h : ¬ c = '0') (l : List Char) :
    decodeHexBytes (c :: l) = decodeHexBytes l := by
  rw [decodeHexBytes.eq_def]
  split
  · simp_all
  · simp_all
  · rename_i hno heq
    injection heq with h1 h2
    rw [h2]

theorem decode_token (d1 d2 : Char) (l : List Char) :
    decodeHexBytes ('0' :: 'x' :: d1 :: d2 :: l) =
      (hexVal d1 * 16 + hexVal d2) :: decodeHexBytes l := by
  rw [decodeHexBytes.eq_def]
  split
  · simp_all
  · rename_i heq
    injection heq with e1 rest1
    injection rest1 with e2 rest2
    injection rest2 with e3 rest3
    injection rest3 with e4 rest4
    rw [← e3, ← e4, ← rest4]
  · rename_i hno heq
    injection heq with h1 h2
    exact (hno d1 d2 l h1.symm h2.symm).elim

theorem hexVal_hexDigitChar : ∀ n, n < 16 → hexVal (hexDigitChar n) = n := by
  decide

theorem decode_encodeFrom (bs : List Nat) : ∀ i, (∀ b ∈ bs, b < 256) →
    decodeHexBytes (encodeFrom i bs) = bs := by
  induction bs with
  | nil =>
    intro i _
    rfl
  | cons b bs ih =>
    intro i h
    have hb : b < 256 := h b (List.mem_cons_self b bs)
    have hbs : ∀ x ∈ bs, x < 256 := fun x hx => h x (List.mem_cons_of_mem b hx)
    have hhi : hexVal (hexDigitChar (b / 16)) = b / 16 :=
      hexVal_hexDigitChar _ (by omega)
    have hlo : hexVal (hexDigitChar (b % 16)) = b % 16 :=
      hexVal_hexDigitChar _ (by omega)
    unfold encodeFrom
    by_cases hi : i % 12 = 0
    · rw [if_pos hi]
      simp only [hexByte, List.cons_append, List.nil_append]
      rw [decode_skip _ (by decide), decode_skip _ (by decide),
        decode_skip _ (by decide), decode_skip _ (by decide),
        decode_skip _ (by decide), decode_token,
        decode_skip _ (by decide), decode_skip _ (by decide)]
      rw [hhi, hlo, ih (i + 1) hbs]
      congr 1
      omega
    · rw [if_neg hi]
      simp only [hexByte, List.cons_append, List.nil_append]
      rw [decode_token, decode_skip _ (by decide), decode_skip _ (by decide)]
      rw [hhi, hlo, ih (i + 1) hbs]
      congr 1
      omega

/-- C3: byte-exact round-trip: for every asset content (each byte an octet,
including the zero-length content), parsing the two-digit `0x..` elements of
the emitted byte-array body in order yields exactly the original bytes; the
encoder applies no transformation of byte values. -/
theorem C3_roundtrip (content : List Nat) (h : ∀ b ∈ content, b < 256) :
    decodeHexBytes (byteArrayBody content).data = content :=
  decode_encodeFrom content 0 h

/-- Witness for C3 on a 13-byte content (crossing the 12-per-line wrap). -/
theorem C3_roundtrip_witness :
    decodeHexBytes
        (byteArrayBody [0, 255, 16, 1, 2, 3, 4, 5, 6, 7, 8, 9, 171]).data =
      [0, 255, 16, 1, 2, 3, 4, 5, 6, 7, 8, 9, 171] :=
  C3_roundtrip [0, 255, 16, 1, 2, 3, 4, 5, 6, 7, 8, 9, 171] (by decide)

/-- Input used to refute the hidden-directory half of C6: a hidden directory
`.hidden` containing the non-hidden file `style.css`. -/
def hiddenDirTree : DirTree :=
  .node [] [(".hidden", .node [("style.css", [1])] [])]

theorem walkFiles_names (pre : List String) (files : List (String × List Nat)) :
    ∀ a ∈ walkFiles pre files, startsWithDot a.name = false := by
  intro a ha
  unfold walkFiles at ha
  rcases List.mem_map.mp ha with ⟨f, hf, hfa⟩
  have hkeep := (List.mem_filter.mp hf).2
  rw [← hfa]
  simpa using hkeep

mutual

theorem walkTree_names (pre : List String) (t : DirTree) :
    ∀ a ∈ walkTree pre t, startsWithDot a.name = false := by
  cases t with
  | node files dirs =>
    intro a ha
    rw [walkTree] at ha
    rcases List.mem_append.mp ha with h | h
    · exact walkFiles_names pre files a h
    · exact walkDirs_names pre dirs a h

theorem walkDirs_names (pre : List String) (ds : List (String × DirTree)) :
    ∀ a ∈ walkDirs pre ds, startsWithDot a.name = false := by
  cases ds with
  | nil =>
    intro a ha
    rw [walkDirs] at ha
    exact absurd ha (by simp)
  | cons dt rest =>
    obtain ⟨d, t⟩ := dt
    intro a ha
    rw [walkDirs] at ha
    rcases List.mem_append.mp ha with h | h
    · exact walkTree_names (pre ++ [d]) t a h
    · exact walkDirs_names pre rest a h

end

/-- C6 counterexample: the claim says no file under a hidden directory ever
becomes an Asset, but the walk only filters file names, so the non-hidden
file `style.css` inside the hidden directory `.hidden` is collected with
relative path `.hidden/style.css`. -/
theorem C6_counterexample :
    ".hidden/style.css" ∈ (walkTree [] hiddenDirTree).map Asset.relPath := by
  simp [hiddenDirTree, walkTree, walkDirs, walkFiles, Asset.relPath]
  exact ⟨"style.css", ⟨rfl, by decide⟩, by decide⟩

/-- C6 (amended): during traversal every file whose own name starts with `.`
is skipped, so no Asset's filename begins with `.`; hidden directories,
however, are not pruned, so files beneath them do become Assets. -/
theorem C6_hidden_files_skipped (t : DirTree) (a : Asset)
    (h : a ∈ walkTree [] t) : startsWithDot a.name = false :=
  walkTree_names [] t a h

/-- Witness for C6 (amended) at a one-file tree. -/
theorem C6_hidden_files_skipped_witness :
    startsWithDot (Asset.mk [] "index.html" [2]).name = false :=
  C6_hidden_files_skipped (.node [("index.html", [2])] [])
    (Asset.mk [] "index.html" [2])
    (by simp [walkTree, walkDirs, walkFiles]; decide)

/-- C1 (refuted on the code): on the one-asset input `index.html`, combined
mode keys `get_bundled_files()` by the relative path `index.html`, while
split mode keys it by the literal identifier text `index_html_path`
(`tools/web_bundler.py` line 128), so the two emission modes do not expose
the same `get_bundled_files()` key set, against the mode contract. -/
theorem C1_split_mode_key_divergence :
    (combinedFilesEntries c1Assets).map Prod.fst = ["index.html"] ∧
    (splitFilesEntries c1Assets).map Prod.fst = ["index_html_path"] ∧
    (combinedFilesEntries c1Assets).map Prod.fst ≠
      (splitFilesEntries c1Assets).map Prod.fst := by
  refine ⟨?_, ?_, ?_⟩ <;> decide

/-- C2 (refuted on the code): the paths `a.b.css` and `a-b.css` sanitize to
the same symbolic name `a_b_css`, yet neither generator fails: split mode
writes the same output file `a_b_css.hpp` twice (the second silently
overwriting the first) and combined mode emits both blocks under the same
identifier and still produces its full output text. -/
theorem C2_silent_collision :
    sanitize_var_name "a.b.css" = some "a_b_css" ∧
    sanitize_var_name "a-b.css" = some "a_b_css" ∧
    collisionAssets.map splitOutputFileName = ["a_b_css.hpp", "a_b_css.hpp"] ∧
    collisionAssets.map assetVar = ["a_b_css", "a_b_css"] ∧
    emitCombined collisionAssets ≠ "" := by
  refine ⟨?_, ?_, ?_, ?_, ?_⟩ <;> decide

/-- C7 (refuted on the code, split mode): for the Bundle built from the
single asset `app.css`, the stored relative path `app.css` is in the Bundle,
yet split-mode `get_bundled_file("app.css")` returns null because the map is
keyed by the identifier text `app_css_path`; combined mode returns the bytes,
and the MIME lookup behaves as claimed in both modes. -/
theorem C7_split_lookup_returns_null :
    "app.css" ∈ c7Assets.map Asset.relPath ∧
    get_bundled_file (splitFilesEntries c7Assets) "app.css" = none ∧
    get_bundled_file (combinedFilesEntries c7Assets) "app.css" = some [1, 2] ∧
    get_bundled_file_mime_type (splitMimeEntries c7Assets) "app.css" =
      "text/css" ∧
    get_bundled_file_mime_type (splitMimeEntries c7Assets) "missing.txt" =
      "application/octet-stream" := by
  refine ⟨?_, ?_, ?_, ?_, ?_⟩ <;> decide

/-- C8: the combined-mode pipeline is a deterministic pure function of the
traversed directory contents: any two directory states whose walks discover
the same assets (in particular, the same state twice) produce byte-identical
`web_bundle.hpp` text — same identifiers, same ordering, same hex
formatting. -/
theorem C8_deterministic (t1 t2 : DirTree)
    (h : walkTree [] t1 = walkTree [] t2) :
    bundleWebFilesOutput t1 = bundleWebFilesOutput t2 := by
  unfold bundleWebFilesOutput
  rw [h]

/-- Witness for C8: two different trees with the same discovered assets. -/
theorem C8_deterministic_witness :
    bundleWebFilesOutput c8TreeA = bundleWebFilesOutput c8TreeB :=
  C8_deterministic c8TreeA c8TreeB
    (by simp [c8TreeA, c8TreeB, walkTree, walkDirs, walkFiles])

end DHTHunter
